import Mathlib

/-!
Verification of the Flip 7 game engine (Angular application).

The definitions below are a shallow embedding of the game-logic code:

* `CardType`, `Card`                — src/app/models/card.model.ts
* `GameLogicService` functions      — src/app/services/game-logic.service.ts
  (`checkBust`, `hasSecondChance`, `removeSecondChanceAndBustCard`,
   `calculateRoundScore`, `hasFreeze`, `hasFlipThree`)
* `CardDeckService`                 — src/app/services/card-deck.service.ts
  (`baseDeck` is the card list built by `initializeDeck` before the final
   shuffle; `shuffle` is the Fisher-Yates loop with the stream of
   `Math.random` draws modelled by a function `rand : Nat → Nat`, the
   index `j = Math.floor(Math.random() * (i + 1))` becoming `rand i % (i+1)`;
   `drawCardFromDeck` is `drawCard`)
* `AppState` and its operations     — src/app/app.ts
  (`drawCard` is the synchronous body of `App.drawCard`; the
   `setTimeout`-deferred deck reshuffle is modelled by the
   `pendingReshuffle` flag together with the separate step
   `runPendingReshuffle`, which is the body of the scheduled callback;
   `finalizeTurnEnd`, `handleAddPlayer`, `handleRemovePlayer`,
   `resetGameState`, `startGame` are direct translations; popup signals,
   which are pure presentation, are not modelled)
* `canAddPlayer`, `canRemovePlayer` — src/app/components/start-modal/start-modal.ts

JavaScript numbers in the game logic only ever hold small non-negative
integers (ids, card values, scores, counts), so they are modelled as `Nat`.
-/

namespace Flip7

/-- `CardType` enum from card.model.ts. -/
inductive CardType where
  | NUMBER
  | ADDITION
  | MULTIPLIER
  | FREEZE
  | FLIP_THREE
  | SECOND_CHANCE
deriving DecidableEq, Repr

/-- `Card` interface from card.model.ts: id, type, value, imageUrl,
displayValue. -/
structure Card where
  id : Nat
  type : CardType
  value : Nat
  imageUrl : String
  displayValue : String
deriving DecidableEq, Repr

/-! ## GameLogicService (src/app/services/game-logic.service.ts) -/

/-- `GameLogicService.checkBust`: only number cards can cause a bust; a bust
happens iff the incoming number was already drawn. -/
def checkBust (drawnCards : List Card) (newCard : Card) : Bool :=
  if newCard.type ≠ CardType.NUMBER then
    false
  else
    let numberCards := drawnCards.filter (fun card => decide (card.type = CardType.NUMBER))
    numberCards.any (fun card => decide (card.value = newCard.value))

/-- `GameLogicService.hasSecondChance`. -/
def hasSecondChance (drawnCards : List Card) : Bool :=
  drawnCards.any (fun card => decide (card.type = CardType.SECOND_CHANCE))

/-- Return type of `removeSecondChanceAndBustCard`. -/
structure RemovalResult where
  remainingCards : List Card
  removedCards : List Card
deriving DecidableEq, Repr

/-- The traversal inside `removeSecondChanceAndBustCard`: the source runs a
`filter` with a mutable `secondChanceRemoved` flag (here the `scRemoved`
argument) and pushes each dropped card onto `removedCards` in traversal
order.  Returns (kept cards, removed cards). -/
def removeSCAux (bustCardId : Nat) (scRemoved : Bool) :
    List Card → List Card × List Card
  | [] => ([], [])
  | card :: rest =>
    if card.id = bustCardId then
      let r := removeSCAux bustCardId scRemoved rest
      (r.1, card :: r.2)
    else if card.type = CardType.SECOND_CHANCE ∧ scRemoved = false then
      let r := removeSCAux bustCardId true rest
      (r.1, card :: r.2)
    else
      let r := removeSCAux bustCardId scRemoved rest
      (card :: r.1, r.2)

/-- `GameLogicService.removeSecondChanceAndBustCard`: removes the card whose
id is `bustCardId` and the first SECOND CHANCE card encountered. -/
def removeSecondChanceAndBustCard (drawnCards : List Card) (bustCardId : Nat) :
    RemovalResult :=
  let r := removeSCAux bustCardId false drawnCards
  { remainingCards := r.1, removedCards := r.2 }

/-- The body of the `for` loop in `calculateRoundScore`, accumulating
`(score, hasMultiplier)`. -/
def scoreStep (acc : Nat × Bool) (card : Card) : Nat × Bool :=
  if card.type = CardType.NUMBER ∨ card.type = CardType.ADDITION then
    (acc.1 + card.value, acc.2)
  else if card.type = CardType.MULTIPLIER then
    (acc.1, true)
  else
    acc

/-- `GameLogicService.calculateRoundScore`: sums NUMBER and ADDITION card
values, doubles if a MULTIPLIER is present, then adds 15 whenever the hand
holds exactly 7 cards (`drawnCards.length === 7` in the source). -/
def calculateRoundScore (drawnCards : List Card) : Nat :=
  let acc := drawnCards.foldl scoreStep (0, false)
  let score := if acc.2 then acc.1 * 2 else acc.1
  if drawnCards.length = 7 then score + 15 else score

/-- `GameLogicService.hasFreeze`. -/
def hasFreeze (drawnCards : List Card) : Bool :=
  drawnCards.any (fun card => decide (card.type = CardType.FREEZE))

/-- `GameLogicService.hasFlipThree`. -/
def hasFlipThree (drawnCards : List Card) : Bool :=
  drawnCards.any (fun card => decide (card.type = CardType.FLIP_THREE))

/-! ## CardDeckService (src/app/services/card-deck.service.ts) -/

/-- The value multiset of the number-card loop: `for value = 12 down to 1`,
`value` copies of `value`. -/
def numberValuesDesc : List Nat :=
  ((List.range 12).reverse.map (fun k => k + 1)).flatMap
    (fun v => List.replicate v v)

/-- The deck contents built by `initializeDeck` before ids are assigned, in
construction order: type, value, imageUrl, displayValue. -/
def deckSpec : List (CardType × Nat × String × String) :=
  (numberValuesDesc.map
      (fun v => (CardType.NUMBER, v, "images/cards/card-" ++ toString v ++ ".svg", toString v)))
    ++ [(CardType.NUMBER, 0, "images/cards/card-0.svg", "0")]
    ++ ([2, 4, 6, 8, 10].map
      (fun v => (CardType.ADDITION, v, "images/cards/card-plus" ++ toString v ++ ".svg",
        "+" ++ toString v)))
    ++ [(CardType.MULTIPLIER, 2, "images/cards/card-x2.svg", "x2")]
    ++ List.replicate 3 (CardType.FREEZE, 0, "images/cards/card-freeze.svg", "FREEZE")
    ++ List.replicate 3 (CardType.FLIP_THREE, 0, "images/cards/card-flip-three.svg", "FLIP THREE")
    ++ List.replicate 3
      (CardType.SECOND_CHANCE, 0, "images/cards/card-second-chance.svg", "SECOND CHANCE")

/-- The 94-card list built by `initializeDeck` (before its final `shuffle`),
with `createCard` assigning ascending ids starting at `currentId = 1`. -/
def baseDeck : List Card :=
  deckSpec.enum.map (fun p =>
    { id := p.1 + 1, type := p.2.1, value := p.2.2.1,
      imageUrl := p.2.2.2.1, displayValue := p.2.2.2.2 })

/-- One Fisher-Yates swap: exchange positions `i` and `j` (no-op if either
index is out of range, which never happens in `shuffle`). -/
def swapAt (l : List Card) (i j : Nat) : List Card :=
  match l.get? i, l.get? j with
  | some a, some b => (l.set i b).set j a
  | _, _ => l

/-- The Fisher-Yates loop of `CardDeckService.shuffle`, counting `i` down;
at index `i` the random draw `rand i` selects `j = rand i % (i + 1)`,
the model of `Math.floor(Math.random() * (i + 1))`. -/
def shuffleGo (rand : Nat → Nat) : List Card → Nat → List Card
  | l, 0 => l
  | l, i + 1 => shuffleGo rand (swapAt l (i + 1) (rand (i + 1) % (i + 2))) i

/-- `CardDeckService.shuffle`: copy the array and run Fisher-Yates from
`i = length - 1` down to `1`. -/
def shuffle (rand : Nat → Nat) (cards : List Card) : List Card :=
  shuffleGo rand cards (cards.length - 1)

/-- `CardDeckService.initializeDeck`: build the 94 cards and shuffle them. -/
def initializeDeck (rand : Nat → Nat) : List Card :=
  shuffle rand baseDeck

/-- `CardDeckService.drawCard`: `null` on an empty deck, otherwise the front
card and the remaining deck (`currentDeck[0]` / `currentDeck.slice(1)`). -/
def drawCardFromDeck (deck : List Card) : Option Card × List Card :=
  match deck with
  | [] => (none, [])
  | card :: rest => (some card, rest)

/-- `CardDeckService.setDeck` (the engine's `loadAndShuffle`): replace the
deck with a shuffled copy of the given cards. -/
def setDeck (rand : Nat → Nat) (cards : List Card) : List Card :=
  shuffle rand cards

/-! ## GAME_CONFIG (src/app/constants/app.constants.ts) -/

def MIN_PLAYERS : Nat := 3
def MAX_PLAYERS : Nat := 18
def MAX_HAND_SIZE : Nat := 7
def DECK_SIZE : Nat := 94
def WINNING_SCORE : Nat := 200

/-- `PLAYER_CONFIG.getDefaultName`. -/
def getDefaultName (index : Nat) : String :=
  "Player " ++ toString (index + 1)

/-! ## App (src/app/app.ts) -/

/-- `Player` interface from app.ts. -/
structure Player where
  name : String
  totalScore : Nat
deriving DecidableEq, Repr

/-- The game-state signals of the `App` component.  The `deckCount` signal
always mirrors `deck.length` (it is re-set from `getRemainingCount()` after
every deck mutation), so it is not modelled separately.  The scheduled
deck-empty reshuffle callback (`setTimeout` in `drawCard`) is modelled by
`pendingReshuffle`; presentation-only popup signals are omitted. -/
structure AppState where
  players : List Player
  currentPlayerIndex : Nat
  currentRoundScore : Nat
  drawnCards : List Card
  discardPile : List Card
  deck : List Card
  isTurnActive : Bool
  hasBusted : Bool
  isFlippingThree : Bool
  flipThreeCount : Nat
  pendingReshuffle : Bool
  winner : Option Player
deriving DecidableEq, Repr

/-- The NUMBER-card count of a hand, as computed at the hand-limit checks in
`drawCard` and in `canDrawCard`. -/
def numberCardCount (cards : List Card) : Nat :=
  (cards.filter (fun c => decide (c.type = CardType.NUMBER))).length

/-- `App.canDrawCard` computed signal. -/
def canDrawCard (s : AppState) : Bool :=
  s.isTurnActive && !s.hasBusted
    && decide (numberCardCount s.drawnCards < MAX_HAND_SIZE)
    && decide (s.deck.length > 0) && !s.isFlippingThree

/-- `App.canStartGame` computed signal. -/
def canStartGame (players : List Player) : Bool :=
  decide (MIN_PLAYERS ≤ players.length) && decide (players.length ≤ MAX_PLAYERS)

/-- The synchronous body of `App.drawCard`.  In the source the deck-empty
reshuffle is only *scheduled* (`setTimeout`, 1.5 s): here that scheduling is
`pendingReshuffle := true`, and the callback body is the separate step
`runPendingReshuffle`.  The FLIP THREE branch likewise only sets the flags
and schedules `autoFlipThree` timers, which are separate steps. -/
def drawCard (s : AppState) : AppState :=
  if s.deck.length = 0 then s
  else if canDrawCard s = false then s
  else
    match s.deck with
    | [] => s
    | card :: rest =>
      let s1 : AppState := { s with deck := rest }
      let s1 : AppState :=
        if s1.deck.length = 0 ∧ s1.discardPile.length > 0 then
          { s1 with pendingReshuffle := true }
        else s1
      if checkBust s1.drawnCards card then
        if hasSecondChance s1.drawnCards then
          let r := removeSecondChanceAndBustCard s1.drawnCards card.id
          { s1 with drawnCards := r.remainingCards,
                    discardPile := r.removedCards ++ s1.discardPile }
        else
          { s1 with drawnCards := s1.drawnCards ++ [card],
                    hasBusted := true,
                    isTurnActive := false,
                    currentRoundScore := 0 }
      else
        let newCards := s1.drawnCards ++ [card]
        let s2 : AppState := { s1 with drawnCards := newCards,
                                       currentRoundScore := calculateRoundScore newCards }
        if card.type = CardType.FREEZE then
          { s2 with isTurnActive := false }
        else
          let s3 : AppState :=
            if card.type = CardType.FLIP_THREE ∧ s2.isFlippingThree = false then
              { s2 with isFlippingThree := true, flipThreeCount := 0 }
            else s2
          if MAX_HAND_SIZE ≤ numberCardCount newCards then
            { s3 with isTurnActive := false }
          else s3

/-- The body of the reshuffle callback scheduled by `drawCard`:
`setDeck(discardPile)` then clear the discard pile. -/
def runPendingReshuffle (rand : Nat → Nat) (s : AppState) : AppState :=
  if s.pendingReshuffle then
    { s with deck := setDeck rand s.discardPile,
             discardPile := [],
             pendingReshuffle := false }
  else s

/-- The updated roster computed at the top of `App.finalizeTurnEnd`: the
active player's total grows by the final score (0 on a bust). -/
def updatedPlayersAfter (s : AppState) : List Player :=
  let finalScore := if s.hasBusted then 0 else s.currentRoundScore
  s.players.enum.map (fun p =>
    if p.1 = s.currentPlayerIndex then
      { p.2 with totalScore := p.2.totalScore + finalScore }
    else p.2)

/-- The `reduce` picking the winning player in `finalizeTurnEnd`:
`prev.totalScore > current.totalScore ? prev : current`. -/
def winnerStep (prev current : Player) : Player :=
  if current.totalScore < prev.totalScore then prev else current

/-- `updatedPlayers.reduce(winnerStep)`; JavaScript `reduce` without an
initial value folds from the first element (and throws on an empty array,
modelled as `none`). -/
def reduceWinner : List Player → Option Player
  | [] => none
  | p :: rest => some (rest.foldl winnerStep p)

/-- `App.finalizeTurnEnd`: commit the turn score, move the hand to the
discard pile, reset the turn, rotate the active player, and detect a winner
at 200+ points. -/
def finalizeTurnEnd (s : AppState) : AppState :=
  let updatedPlayers := updatedPlayersAfter s
  let s2 : AppState :=
    { s with players := updatedPlayers,
             discardPile := s.drawnCards ++ s.discardPile,
             drawnCards := [],
             currentRoundScore := 0,
             hasBusted := false,
             isTurnActive := true,
             isFlippingThree := false,
             flipThreeCount := 0,
             currentPlayerIndex := (s.currentPlayerIndex + 1) % updatedPlayers.length }
  if updatedPlayers.any (fun p => decide (WINNING_SCORE ≤ p.totalScore)) then
    { s2 with winner := reduceWinner updatedPlayers }
  else s2

/-- `App.endTurn`: deactivate the turn (finalization runs later from the
scheduled next-player popup). -/
def endTurn (s : AppState) : AppState :=
  { s with isTurnActive := false }

/-- `App.handleAddPlayer`: append a player unconditionally; an all-blank name
falls back to the default name for the new index. -/
def handleAddPlayer (s : AppState) (playerName : String) : AppState :=
  let playerIndex := s.players.length
  let name := if playerName.trim = "" then getDefaultName playerIndex else playerName.trim
  { s with players := s.players ++ [{ name := name, totalScore := 0 }] }

/-- `App.handleRemovePlayer`: drop the player at `index` unconditionally
(`filter((_, i) => i !== index)`). -/
def handleRemovePlayer (s : AppState) (index : Nat) : AppState :=
  { s with players := (s.players.enum.filter (fun p => decide (p.1 ≠ index))).map Prod.snd }

/-- `App.resetGameState`: zero the turn and scores and rebuild the deck
(`cardDeckService.reset()`). -/
def resetGameState (rand : Nat → Nat) (s : AppState) : AppState :=
  { s with currentPlayerIndex := 0,
           currentRoundScore := 0,
           drawnCards := [],
           discardPile := [],
           isTurnActive := true,
           hasBusted := false,
           isFlippingThree := false,
           flipThreeCount := 0,
           deck := initializeDeck rand,
           players := s.players.map (fun p => { p with totalScore := 0 }) }

/-- `App.startGame`: guarded by `canStartGame`. -/
def startGame (rand : Nat → Nat) (s : AppState) : AppState :=
  if canStartGame s.players then resetGameState rand s else s

/-- The `App` component's initial signal values (three default players, a
freshly built deck from the service constructor). -/
def initialState (rand : Nat → Nat) : AppState :=
  { players := [{ name := getDefaultName 0, totalScore := 0 },
                { name := getDefaultName 1, totalScore := 0 },
                { name := getDefaultName 2, totalScore := 0 }],
    currentPlayerIndex := 0,
    currentRoundScore := 0,
    drawnCards := [],
    discardPile := [],
    deck := initializeDeck rand,
    isTurnActive := true,
    hasBusted := false,
    isFlippingThree := false,
    flipThreeCount := 0,
    pendingReshuffle := false,
    winner := none }

/-- States reachable through the engine's operations, with the `Math.random`
stream of each shuffle chosen nondeterministically. -/
inductive Reachable : AppState → Prop where
  | init (rand : Nat → Nat) : Reachable (initialState rand)
  | draw {s : AppState} : Reachable s → Reachable (drawCard s)
  | reshuffle {s : AppState} (rand : Nat → Nat) :
      Reachable s → Reachable (runPendingReshuffle rand s)
  | endTurnStep {s : AppState} : Reachable s → Reachable (endTurn s)
  | finalize {s : AppState} : Reachable s → Reachable (finalizeTurnEnd s)
  | addPlayer {s : AppState} (name : String) :
      Reachable s → Reachable (handleAddPlayer s name)
  | removePlayer {s : AppState} (i : Nat) :
      Reachable s → Reachable (handleRemovePlayer s i)
  | start {s : AppState} (rand : Nat → Nat) :
      Reachable s → Reachable (startGame rand s)

/-- Total number of cards across the draw pile, the discard pile, and the
active hand. -/
def cardTotal (s : AppState) : Nat :=
  s.deck.length + s.discardPile.length + s.drawnCards.length

/-! ## StartModal (src/app/components/start-modal/start-modal.ts) -/

/-- `StartModal.canAddPlayer` (the `maxPlayers` input is wired to
`GAME_CONFIG.MAX_PLAYERS`). -/
def canAddPlayer (players : List Player) : Bool :=
  decide (players.length < MAX_PLAYERS)

/-- `StartModal.canRemovePlayer` (the `minPlayers` input is wired to
`GAME_CONFIG.MIN_PLAYERS`). -/
def canRemovePlayer (players : List Player) : Bool :=
  decide (MIN_PLAYERS < players.length)

/-! ## Spec-side helper definitions

These follow the specification's wording (sums `S` and `A`, multiplier flag
`M`, number count `n`, maximum total score) and are compared against the
source-derived functions above. -/

/-- `S`: the sum of the values of the NUMBER cards of a hand. -/
def numberSum (cards : List Card) : Nat :=
  ((cards.filter (fun c => decide (c.type = CardType.NUMBER))).map Card.value).sum

/-- `A`: the sum of the values of the ADDITION cards of a hand. -/
def additionSum (cards : List Card) : Nat :=
  ((cards.filter (fun c => decide (c.type = CardType.ADDITION))).map Card.value).sum

/-- `M`: whether a MULTIPLIER card is present in a hand. -/
def hasMultiplierCard (cards : List Card) : Bool :=
  cards.any (fun c => decide (c.type = CardType.MULTIPLIER))

/-- The round-score law exactly as the specification states it: the 15-point
bonus is keyed to the NUMBER-card count `n` being 7. -/
def claimRoundScore (cards : List Card) : Nat :=
  (numberSum cards + additionSum cards) * (if hasMultiplierCard cards then 2 else 1)
    + (if numberCardCount cards = 7 then 15 else 0)

/-- The maximum `totalScore` over a roster (0 for an empty roster). -/
def maxTotal (l : List Player) : Nat :=
  l.foldr (fun p m => max p.totalScore m) 0

/-! ## Concrete fixtures for counterexamples and witnesses -/

/-- A NUMBER test card. -/
def mkNumberCard (id v : Nat) : Card :=
  { id := id, type := CardType.NUMBER, value := v,
    imageUrl := "images/cards/card-" ++ toString v ++ ".svg",
    displayValue := toString v }

/-- A non-number test card of the given type. -/
def mkSpecialCard (id : Nat) (t : CardType) (v : Nat) (label : String) : Card :=
  { id := id, type := t, value := v, imageUrl := "images/cards/special.svg",
    displayValue := label }

/-- A baseline in-match state with three fresh players and empty piles. -/
def baseState : AppState :=
  { players := [{ name := getDefaultName 0, totalScore := 0 },
                { name := getDefaultName 1, totalScore := 0 },
                { name := getDefaultName 2, totalScore := 0 }],
    currentPlayerIndex := 0,
    currentRoundScore := 0,
    drawnCards := [],
    discardPile := [],
    deck := [],
    isTurnActive := true,
    hasBusted := false,
    isFlippingThree := false,
    flipThreeCount := 0,
    pendingReshuffle := false,
    winner := none }

/-- A `Math.random` schedule whose Fisher-Yates run leaves the fresh deck in
its construction order except that a SECOND CHANCE card and two value-5
NUMBER cards are brought to the front: the swap at `i = 93` targets slot 0,
the swaps at `i = 67` and `i = 66` target slots 1 and 2, and every other
step swaps a slot with itself. -/
def rand0 : Nat → Nat := fun i =>
  if i = 93 then 0 else if i = 67 then 1 else if i = 66 then 2 else i

/-- The match state after starting a game with the `rand0` deck order and
drawing twice: the hand holds a SECOND CHANCE card and a 5, and the next
deck card is another 5. -/
def c1midState : AppState :=
  drawCard (drawCard (startGame rand0 (initialState rand0)))

/-- C2 fixture: the hand holds a SECOND CHANCE card (id 92) and a 5 (id 64);
the deck's front card is another 5 (id 65), which will bust. -/
def c2State : AppState :=
  { baseState with
      currentRoundScore := 5,
      drawnCards := [mkSpecialCard 92 CardType.SECOND_CHANCE 0 "SECOND CHANCE",
                     mkNumberCard 64 5],
      deck := [mkNumberCard 65 5] }

/-- C2 fixture: the freshly drawn bust card (id 65, value 5). -/
def c2BustCard : Card := mkNumberCard 65 5

/-- C3 counterexample hand: six distinct NUMBER cards (values 1..6) plus the
MULTIPLIER — 7 cards in total but only 6 NUMBER cards. -/
def c3hand : List Card :=
  [mkNumberCard 1 1, mkNumberCard 2 2, mkNumberCard 3 3, mkNumberCard 4 4,
   mkNumberCard 5 5, mkNumberCard 6 6, mkSpecialCard 7 CardType.MULTIPLIER 2 "x2"]

/-- C4 counterexample fixture: one card left in the draw pile and a nonempty
discard pile. -/
def c4State : AppState :=
  { baseState with
      deck := [mkNumberCard 10 9],
      discardPile := [mkNumberCard 11 3, mkNumberCard 12 4] }

/-- C4 witness fixture: the state right after a draw emptied the pile — the
reshuffle is pending, the discard pile still holds the used cards. -/
def c4PendingState : AppState :=
  { baseState with
      drawnCards := [mkNumberCard 20 9],
      discardPile := [mkNumberCard 21 3, mkNumberCard 22 4],
      pendingReshuffle := true }

/-- C5 counterexample fixture: a full roster of 18 players. -/
def c5FullState : AppState :=
  { baseState with
      players := (List.range 18).map (fun i => { name := getDefaultName i, totalScore := 0 }) }

/-- C5 counterexample fixture: the minimum roster of 3 players. -/
def c5MinState : AppState := baseState

/-- C5 witness fixture: a 4-player roster. -/
def c5MidState : AppState :=
  { baseState with
      players := (List.range 4).map (fun i => { name := getDefaultName i, totalScore := 0 }) }

/-- C6 witness fixture: a busted turn holding a duplicate pair, with a
nonzero round score left over from before the bust handling. -/
def c6State : AppState :=
  { baseState with
      drawnCards := [mkNumberCard 30 7, mkNumberCard 31 7],
      discardPile := [mkNumberCard 32 2],
      currentRoundScore := 0,
      hasBusted := true,
      isTurnActive := false }

/-- C9 witness fixture: a hand holding one SECOND CHANCE card and a 5. -/
def c9hand : List Card :=
  [mkSpecialCard 40 CardType.SECOND_CHANCE 0 "SECOND CHANCE", mkNumberCard 41 5]

/-- C10 witness fixture: players 1 and 2 are tied at 200 points when the
turn finalizes (the active player busted, so scores do not change). -/
def c10State : AppState :=
  { baseState with
      players := [{ name := getDefaultName 0, totalScore := 200 },
                  { name := getDefaultName 1, totalScore := 200 },
                  { name := getDefaultName 2, totalScore := 40 }],
      hasBusted := true,
      isTurnActive := false }

/-! ## Helper lemmas: the Fisher-Yates loop is a permutation -/

theorem cons_set_perm (c : Card) :
    ∀ (rest : List Card) (k : Nat) (b : Card), rest.get? k = some b →
      (b :: rest.set k c).Perm (c :: rest) := by
  intro rest
  induction rest with
  | nil => intro k b h; simp at h
  | cons d t ih =>
    intro k b h
    cases k with
    | zero =>
      simp only [List.get?_cons_zero, Option.some.injEq] at h
      subst h
      exact List.Perm.swap c d t
    | succ k =>
      simp only [List.get?_cons_succ] at h
      show (b :: d :: t.set k c).Perm (c :: d :: t)
      have h2 : (b :: d :: t.set k c).Perm (d :: b :: t.set k c) := List.Perm.swap d b _
      have h3 : (d :: b :: t.set k c).Perm (d :: c :: t) := (ih k b h).cons d
      have h4 : (d :: c :: t).Perm (c :: d :: t) := List.Perm.swap c d t
      exact (h2.trans h3).trans h4

theorem set_set_perm :
    ∀ (l : List Card) (i j : Nat) (a b : Card),
      l.get? i = some a → l.get? j = some b → ((l.set i b).set j a).Perm l := by
  intro l
  induction l with
  | nil => intro i j a b hi _; simp at hi
  | cons c t ih =>
    intro i j a b hi hj
    cases i with
    | zero =>
      simp only [List.get?_cons_zero, Option.some.injEq] at hi
      subst hi
      cases j with
      | zero =>
        simp only [List.get?_cons_zero, Option.some.injEq] at hj
        subst hj
        exact List.Perm.refl _
      | succ j =>
        simp only [List.get?_cons_succ] at hj
        show (b :: t.set j c).Perm (c :: t)
        exact cons_set_perm c t j b hj
    | succ i =>
      simp only [List.get?_cons_succ] at hi
      cases j with
      | zero =>
        simp only [List.get?_cons_zero, Option.some.injEq] at hj
        subst hj
        show (a :: t.set i c).Perm (c :: t)
        exact cons_set_perm c t i a hi
      | succ j =>
        simp only [List.get?_cons_succ] at hj
        show (c :: (t.set i b).set j a).Perm (c :: t)
        exact (ih i j a b hi hj).cons c

theorem swapAt_perm (l : List Card) (i j : Nat) : (swapAt l i j).Perm l := by
  unfold swapAt
  cases hi : l.get? i with
  | none => exact List.Perm.refl l
  | some a =>
    cases hj : l.get? j with
    | none => exact List.Perm.refl l
    | some b => exact set_set_perm l i j a b hi hj

theorem shuffleGo_perm (rand : Nat → Nat) :
    ∀ (n : Nat) (l : List Card), (shuffleGo rand l n).Perm l := by
  intro n
  induction n with
  | zero => intro l; exact List.Perm.refl l
  | succ n ih =>
    intro l
    exact (ih _).trans (swapAt_perm l (n + 1) (rand (n + 1) % (n + 2)))

theorem shuffle_perm (rand : Nat → Nat) (cards : List Card) :
    (shuffle rand cards).Perm cards :=
  shuffleGo_perm rand (cards.length - 1) cards

/-! ## Helper lemmas: the score accumulator -/

theorem foldl_scoreStep :
    ∀ (l : List Card) (a : Nat) (b : Bool),
      l.foldl scoreStep (a, b)
        = (a + numberSum l + additionSum l, b || hasMultiplierCard l) := by
  intro l
  induction l with
  | nil => intro a b; simp [numberSum, additionSum, hasMultiplierCard]
  | cons c t ih =>
    intro a b
    simp only [List.foldl_cons]
    by_cases h1 : c.type = CardType.NUMBER ∨ c.type = CardType.ADDITION
    · have hs : scoreStep (a, b) c = (a + c.value, b) := by
        unfold scoreStep; rw [if_pos h1]
      rw [hs, ih]
      have hm : hasMultiplierCard (c :: t) = hasMultiplierCard t := by
        rcases h1 with h | h <;> simp [hasMultiplierCard, h]
      rcases h1 with h | h
      · have hns : numberSum (c :: t) = c.value + numberSum t := by
          simp [numberSum, List.filter_cons, h]
        have has : additionSum (c :: t) = additionSum t := by
          simp [additionSum, List.filter_cons, h]
        rw [hns, has, hm]
        simp only [Prod.mk.injEq]
        exact ⟨by omega, trivial⟩
      · have hns : numberSum (c :: t) = numberSum t := by
          simp [numberSum, List.filter_cons, h]
        have has : additionSum (c :: t) = c.value + additionSum t := by
          simp [additionSum, List.filter_cons, h]
        rw [hns, has, hm]
        simp only [Prod.mk.injEq]
        exact ⟨by omega, trivial⟩
    · push_neg at h1
      have hns : numberSum (c :: t) = numberSum t := by
        simp [numberSum, List.filter_cons, h1.1]
      have has : additionSum (c :: t) = additionSum t := by
        simp [additionSum, List.filter_cons, h1.2]
      by_cases h2 : c.type = CardType.MULTIPLIER
      · have hs : scoreStep (a, b) c = (a, true) := by
          unfold scoreStep
          rw [if_neg (by tauto), if_pos h2]
        rw [hs, ih, hns, has]
        have hm : hasMultiplierCard (c :: t) = true := by
          simp [hasMultiplierCard, h2]
        rw [hm]
        simp
      · have hs : scoreStep (a, b) c = (a, b) := by
          unfold scoreStep
          rw [if_neg (by tauto), if_neg h2]
        rw [hs, ih, hns, has]
        have hm : hasMultiplierCard (c :: t) = hasMultiplierCard t := by
          simp [hasMultiplierCard, List.any_cons, h2]
        rw [hm]

/-! ## Helper lemmas: second-chance removal -/

theorem removeSCAux_true :
    ∀ (l : List Card) (bid : Nat), (∀ c ∈ l, c.id ≠ bid) →
      removeSCAux bid true l = (l, []) := by
  intro l
  induction l with
  | nil => intro bid _; rfl
  | cons c t ih =>
    intro bid h
    unfold removeSCAux
    rw [if_neg (h c (List.mem_cons_self c t))]
    rw [if_neg (by simp)]
    rw [ih bid (fun x hx => h x (List.mem_cons_of_mem c hx))]

theorem removeSCAux_false :
    ∀ (l : List Card) (bid : Nat), (∀ c ∈ l, c.id ≠ bid) →
      removeSCAux bid false l
        = (l.eraseP (fun c => decide (c.type = CardType.SECOND_CHANCE)),
           (l.find? (fun c => decide (c.type = CardType.SECOND_CHANCE))).toList) := by
  intro l
  induction l with
  | nil => intro bid _; rfl
  | cons c t ih =>
    intro bid h
    unfold removeSCAux
    rw [if_neg (h c (List.mem_cons_self c t))]
    by_cases hsc : c.type = CardType.SECOND_CHANCE
    · rw [if_pos ⟨hsc, rfl⟩]
      rw [removeSCAux_true t bid (fun x hx => h x (List.mem_cons_of_mem c hx))]
      rw [List.eraseP_cons_of_pos (by simp [hsc])]
      rw [List.find?_cons_of_pos _ (by simp [hsc])]
      rfl
    · rw [if_neg (by intro hc; exact hsc hc.1)]
      rw [ih bid (fun x hx => h x (List.mem_cons_of_mem c hx))]
      rw [List.eraseP_cons_of_neg (by simp [hsc])]
      rw [List.find?_cons_of_neg _ (by simp [hsc])]

/-! ## Helper lemmas: turn finalization and the roster -/

theorem map_enumFrom_add_zero (idx : Nat) :
    ∀ (l : List Player) (n : Nat),
      (List.enumFrom n l).map (fun p =>
          if p.1 = idx then { p.2 with totalScore := p.2.totalScore + 0 } else p.2) = l := by
  intro l
  induction l with
  | nil => intro n; rfl
  | cons p t ih =>
    intro n
    simp only [List.enumFrom_cons, List.map_cons, ih]
    congr 1
    split <;> rfl

theorem updatedPlayersAfter_busted (s : AppState) (h : s.hasBusted = true) :
    updatedPlayersAfter s = s.players := by
  unfold updatedPlayersAfter
  simp only [h, if_true]
  exact map_enumFrom_add_zero s.currentPlayerIndex s.players 0

theorem filter_enumFrom_full :
    ∀ (l : List Player) (n idx : Nat), idx < n →
      (List.enumFrom n l).filter (fun p => decide (p.1 ≠ idx)) = List.enumFrom n l := by
  intro l
  induction l with
  | nil => intro n idx _; rfl
  | cons p t ih =>
    intro n idx h
    simp only [List.enumFrom_cons, List.filter_cons]
    rw [if_pos (by simp; omega)]
    rw [ih (n + 1) idx (by omega)]

theorem length_removeAt :
    ∀ (l : List Player) (n idx : Nat), n ≤ idx →
      (((List.enumFrom n l).filter (fun p => decide (p.1 ≠ idx))).map Prod.snd).length
        = if idx < n + l.length then l.length - 1 else l.length := by
  intro l
  induction l with
  | nil =>
    intro n idx h
    simp only [List.enumFrom_nil, List.filter_nil, List.map_nil, List.length_nil]
    rw [if_neg (by omega)]
  | cons p t ih =>
    intro n idx h
    simp only [List.enumFrom_cons, List.filter_cons, List.length_cons]
    by_cases he : n = idx
    · subst he
      rw [if_neg (by simp)]
      rw [filter_enumFrom_full t (n + 1) n (by omega)]
      rw [if_pos (by omega)]
      simp [List.enumFrom_length]
    · rw [if_pos (by simp [he])]
      simp only [List.map_cons, List.length_cons]
      rw [ih (n + 1) idx (by omega)]
      by_cases hlt : idx < n + (t.length + 1)
      · rw [if_pos (by omega), if_pos (by omega)]
        omega
      · rw [if_neg (by omega), if_neg (by omega)]

/-! ## Helper lemmas: the winner reduction -/

theorem winnerStep_totalScore (a c : Player) :
    (winnerStep a c).totalScore = max a.totalScore c.totalScore := by
  unfold winnerStep
  split <;> omega

theorem winnerFoldl_spec :
    ∀ (l : List Player) (a : Player),
      (l.foldl winnerStep a).totalScore = max a.totalScore (maxTotal l) ∧
      ((l.foldl winnerStep a = a ∧ ∀ p ∈ l, p.totalScore < a.totalScore) ∨
        (∃ k, ∃ hk : k < l.length, l.foldl winnerStep a = l.get ⟨k, hk⟩ ∧
          ∀ m, ∀ hm : m < l.length, k < m →
            (l.get ⟨m, hm⟩).totalScore < (l.foldl winnerStep a).totalScore)) := by
  intro l
  induction l with
  | nil =>
    intro a
    refine ⟨by simp [maxTotal], Or.inl ⟨rfl, by simp⟩⟩
  | cons c t ih =>
    intro a
    simp only [List.foldl_cons]
    have ihs := ih (winnerStep a c)
    have h1 := ihs.1
    have hstep := winnerStep_totalScore a c
    have hmt : maxTotal (c :: t) = max c.totalScore (maxTotal t) := rfl
    constructor
    · rw [h1, hstep, hmt, Nat.max_assoc]
    · by_cases hc : c.totalScore < a.totalScore
      · have hw : winnerStep a c = a := by unfold winnerStep; rw [if_pos hc]
        rw [hw]
        rcases ihs.2 with ⟨he, hall⟩ | ⟨k, hk, he, hlt⟩ <;> rw [hw] at he
        · left
          rw [hw] at hall
          refine ⟨he, ?_⟩
          intro p hp
          rcases List.mem_cons.mp hp with rfl | hp
          · exact hc
          · exact hall p hp
        · right
          rw [hw] at hlt
          refine ⟨k + 1, Nat.succ_lt_succ hk, he, ?_⟩
          intro m hm hkm
          cases m with
          | zero => omega
          | succ m =>
            have hm' : m < t.length := Nat.lt_of_succ_lt_succ hm
            exact hlt m hm' (Nat.lt_of_succ_lt_succ hkm)
      · have hw : winnerStep a c = c := by unfold winnerStep; rw [if_neg hc]
        rw [hw]
        rcases ihs.2 with ⟨he, hall⟩ | ⟨k, hk, he, hlt⟩ <;> rw [hw] at he
        · right
          rw [hw] at hall
          refine ⟨0, Nat.succ_pos t.length, he, ?_⟩
          intro m hm h0m
          cases m with
          | zero => omega
          | succ m =>
            have hm' : m < t.length := Nat.lt_of_succ_lt_succ hm
            show (t.get ⟨m, hm'⟩).totalScore < (t.foldl winnerStep c).totalScore
            rw [he]
            exact hall _ (List.get_mem t m hm')
        · right
          rw [hw] at hlt
          refine ⟨k + 1, Nat.succ_lt_succ hk, he, ?_⟩
          intro m hm hkm
          cases m with
          | zero => omega
          | succ m =>
            have hm' : m < t.length := Nat.lt_of_succ_lt_succ hm
            exact hlt m hm' (Nat.lt_of_succ_lt_succ hkm)

/-! ## Helper lemma: a permitted draw always takes the front deck card -/

theorem drawCard_deck_tail (s : AppState) (c : Card) (rest : List Card)
    (hdeck : s.deck = c :: rest) (hcan : canDrawCard s = true) :
    (drawCard s).deck = rest := by
  unfold drawCard
  rw [hdeck]
  rw [if_neg (by simp), if_neg (by simp [hcan])]
  dsimp only
  repeat' split
  all_goals rfl

/-! ## Helper lemma: the winner reduction returns the last maximum -/

theorem reduceWinner_last_max (l : List Player) (i j : Nat)
    (hi : i < l.length) (hj : j < l.length) (hij : i ≠ j)
    (hmi : (l.get ⟨i, hi⟩).totalScore = maxTotal l)
    (hmj : (l.get ⟨j, hj⟩).totalScore = maxTotal l) :
    ∃ k, ∃ hk : k < l.length, reduceWinner l = some (l.get ⟨k, hk⟩) ∧
      (l.get ⟨k, hk⟩).totalScore = maxTotal l ∧ i ≤ k ∧ j ≤ k ∧
      ∀ m, ∀ hm : m < l.length, k < m → (l.get ⟨m, hm⟩).totalScore < maxTotal l := by
  cases l with
  | nil => simp at hi
  | cons p rest =>
    have spec := winnerFoldl_spec rest p
    have htot : (rest.foldl winnerStep p).totalScore = maxTotal (p :: rest) := by
      rw [spec.1]
      rfl
    rcases spec.2 with ⟨he, hall⟩ | ⟨k, hk, he, hlt⟩
    · exfalso
      have hp : p.totalScore = maxTotal (p :: rest) := by rw [← htot, he]
      by_cases hi0 : i = 0
      · have hj0 : j ≠ 0 := fun hh => hij (by omega)
        obtain ⟨j2, rfl⟩ : ∃ j2, j = j2 + 1 := ⟨j - 1, by omega⟩
        have hj2 : j2 < rest.length := Nat.lt_of_succ_lt_succ hj
        have hlt2 := hall _ (List.get_mem rest j2 hj2)
        have heq : (rest.get ⟨j2, hj2⟩).totalScore = maxTotal (p :: rest) := hmj
        omega
      · obtain ⟨i2, rfl⟩ : ∃ i2, i = i2 + 1 := ⟨i - 1, by omega⟩
        have hi2 : i2 < rest.length := Nat.lt_of_succ_lt_succ hi
        have hlt2 := hall _ (List.get_mem rest i2 hi2)
        have heq : (rest.get ⟨i2, hi2⟩).totalScore = maxTotal (p :: rest) := hmi
        omega
    · refine ⟨k + 1, Nat.succ_lt_succ hk, ?_, ?_, ?_, ?_, ?_⟩
      · show some (rest.foldl winnerStep p) = _
        rw [he]
        rfl
      · show ((p :: rest).get ⟨k + 1, Nat.succ_lt_succ hk⟩).totalScore = maxTotal (p :: rest)
        have : (rest.get ⟨k, hk⟩).totalScore = maxTotal (p :: rest) := he ▸ htot
        exact this
      · by_contra hcon
        push_neg at hcon
        obtain ⟨i2, rfl⟩ : ∃ i2, i = i2 + 1 := ⟨i - 1, by omega⟩
        have hi2 : i2 < rest.length := Nat.lt_of_succ_lt_succ hi
        have hsm := hlt i2 hi2 (by omega)
        rw [htot] at hsm
        have heq : (rest.get ⟨i2, hi2⟩).totalScore = maxTotal (p :: rest) := hmi
        omega
      · by_contra hcon
        push_neg at hcon
        obtain ⟨j2, rfl⟩ : ∃ j2, j = j2 + 1 := ⟨j - 1, by omega⟩
        have hj2 : j2 < rest.length := Nat.lt_of_succ_lt_succ hj
        have hsm := hlt j2 hj2 (by omega)
        rw [htot] at hsm
        have heq : (rest.get ⟨j2, hj2⟩).totalScore = maxTotal (p :: rest) := hmj
        omega
      · intro m hm hkm
        cases m with
        | zero => omega
        | succ m =>
          have hm2 : m < rest.length := Nat.lt_of_succ_lt_succ hm
          have hsm := hlt m hm2 (by omega)
          rw [htot] at hsm
          exact hsm

/-! ## Claim theorems -/

/-- C7: `checkBust(hand, incoming)` returns true iff the incoming card's
kind is NUMBER and some card already in the hand is a NUMBER card with the
same value; for every non-NUMBER incoming card it returns false regardless
of the hand's contents. -/
theorem bustDeterminism (hand : List Card) (c : Card) :
    checkBust hand c = true ↔
      (c.type = CardType.NUMBER ∧
        ∃ x, x ∈ hand ∧ x.type = CardType.NUMBER ∧ x.value = c.value) := by
  unfold checkBust
  by_cases h : c.type = CardType.NUMBER
  · rw [if_neg (by simp [h])]
    simp only [List.any_eq_true, List.mem_filter, decide_eq_true_eq]
    constructor
    · rintro ⟨x, ⟨hx, hxn⟩, hv⟩
      exact ⟨h, x, hx, hxn, hv⟩
    · rintro ⟨-, x, hx, hxn, hv⟩
      exact ⟨x, ⟨hx, hxn⟩, hv⟩
  · rw [if_pos (by simp [h])]
    simp [h]

/-- C3 (counterexample): the hand of six distinct NUMBER cards (sum 21)
plus the MULTIPLIER has 7 cards in total but only 6 NUMBER cards; the code
awards the 15-point bonus on total hand length (score 57), while the
claim's formula, keyed to a NUMBER-card count of 7, yields 42. -/
theorem roundScoreClaimCounterexample :
    calculateRoundScore c3hand = 57 ∧ claimRoundScore c3hand = 42 ∧
      calculateRoundScore c3hand ≠ claimRoundScore c3hand := by decide

/-- C3 (amended): the round score is `(S + A) * (M ? 2 : 1)` plus a
15-point bonus added after the doubling whenever the *total hand length*
equals 7 (`drawnCards.length === 7`), not the NUMBER-card count. -/
theorem roundScoreLaw (cards : List Card) :
    calculateRoundScore cards =
      (numberSum cards + additionSum cards) * (if hasMultiplierCard cards then 2 else 1)
        + (if cards.length = 7 then 15 else 0) := by
  unfold calculateRoundScore
  rw [foldl_scoreStep cards 0 false]
  dsimp only
  by_cases hm : hasMultiplierCard cards = true
  · by_cases h7 : cards.length = 7
    · simp [hm, h7]
    · simp [hm, h7]
  · by_cases h7 : cards.length = 7
    · simp [hm, h7]
    · simp [hm, h7]

set_option maxRecDepth 100000 in
/-- C8: the fresh deck holds exactly 94 cards with pairwise-distinct ids,
its composition matches the table (one 0, `v` copies of each value
`v ∈ 1..12`, one each of +2/+4/+6/+8/+10, one ×2, three each of FREEZE,
FLIP THREE and SECOND CHANCE), and both `shuffle` (used by
`initializeDeck`) and `setDeck` return a permutation of their input. -/
theorem deckCompositionAndShuffle :
    baseDeck.length = 94 ∧
    (baseDeck.map Card.id).Nodup ∧
    (baseDeck.filter (fun c => decide (c.type = CardType.NUMBER ∧ c.value = 0))).length = 1 ∧
    ((List.range 12).all (fun k =>
        decide ((baseDeck.filter (fun c =>
          decide (c.type = CardType.NUMBER ∧ c.value = k + 1))).length = k + 1))) = true ∧
    (([2, 4, 6, 8, 10] : List Nat).all (fun v =>
        decide ((baseDeck.filter (fun c =>
          decide (c.type = CardType.ADDITION ∧ c.value = v))).length = 1))) = true ∧
    (baseDeck.filter (fun c => decide (c.type = CardType.MULTIPLIER))).length = 1 ∧
    (baseDeck.filter (fun c => decide (c.type = CardType.FREEZE))).length = 3 ∧
    (baseDeck.filter (fun c => decide (c.type = CardType.FLIP_THREE))).length = 3 ∧
    (baseDeck.filter (fun c => decide (c.type = CardType.SECOND_CHANCE))).length = 3 ∧
    (∀ rand cards, (shuffle rand cards).Perm cards) ∧
    (∀ rand cards, (setDeck rand cards).Perm cards) ∧
    (∀ rand, (initializeDeck rand).Perm baseDeck) := by
  refine ⟨?_, ?_, ?_, ?_, ?_, ?_, ?_, ?_, ?_, shuffle_perm,
    fun rand cards => shuffle_perm rand cards, fun rand => shuffle_perm rand baseDeck⟩
  all_goals decide

/-- C9: when `bustCardId` matches no card in the hand — exactly how the
engine calls it, passing the freshly drawn card's id before that card is
ever added to the hand — `removeSecondChanceAndBustCard` deletes only the
first SECOND CHANCE card: the remainder is the hand with exactly that card
erased (shrinking by 1, not 2, whenever one is present) and `removedCards`
holds only it. -/
theorem removeWithAbsentBustId (hand : List Card) (bid : Nat)
    (h : bid ∉ hand.map Card.id) :
    (removeSecondChanceAndBustCard hand bid).remainingCards
        = hand.eraseP (fun c => decide (c.type = CardType.SECOND_CHANCE)) ∧
    (removeSecondChanceAndBustCard hand bid).removedCards
        = (hand.find? (fun c => decide (c.type = CardType.SECOND_CHANCE))).toList ∧
    (hasSecondChance hand = true →
      (removeSecondChanceAndBustCard hand bid).remainingCards.length + 1
        = hand.length) := by
  have hids : ∀ c ∈ hand, c.id ≠ bid := by
    intro c hc he
    exact h (he ▸ List.mem_map_of_mem Card.id hc)
  have key := removeSCAux_false hand bid hids
  unfold removeSecondChanceAndBustCard
  rw [key]
  refine ⟨rfl, rfl, ?_⟩
  intro hsc
  obtain ⟨sc, hmem, hp⟩ := List.any_eq_true.mp hsc
  have hlen : (hand.eraseP (fun c => decide (c.type = CardType.SECOND_CHANCE))).length
      = hand.length - 1 := List.length_eraseP_of_mem hmem hp
  have hpos : 0 < hand.length := List.length_pos.mpr (List.ne_nil_of_mem hmem)
  dsimp only
  omega

/-- C9 witness: a hand holding one SECOND CHANCE card and a 5, with bust id
99 matching no card in it. -/
theorem removeWithAbsentBustIdWitness :
    (removeSecondChanceAndBustCard c9hand 99).remainingCards
        = c9hand.eraseP (fun c => decide (c.type = CardType.SECOND_CHANCE)) ∧
    (removeSecondChanceAndBustCard c9hand 99).removedCards
        = (c9hand.find? (fun c => decide (c.type = CardType.SECOND_CHANCE))).toList ∧
    (hasSecondChance c9hand = true →
      (removeSecondChanceAndBustCard c9hand 99).remainingCards.length + 1
        = c9hand.length) :=
  removeWithAbsentBustId c9hand 99 (by decide)

/-- C6: every turn that reaches the busted state finalizes with an awarded
score of 0 — every player's `totalScore`, the active player's included, is
unchanged — and all cards in the hand (the bust card was appended to it
when the bust was detected) are moved to the front of the discard pile,
clearing the hand. -/
theorem bustForfeitsScore (s : AppState) (h : s.hasBusted = true) :
    (finalizeTurnEnd s).players = s.players ∧
    (finalizeTurnEnd s).discardPile = s.drawnCards ++ s.discardPile ∧
    (finalizeTurnEnd s).drawnCards = [] := by
  unfold finalizeTurnEnd
  rw [updatedPlayersAfter_busted s h]
  refine ⟨?_, ?_, ?_⟩ <;> (dsimp only; split <;> rfl)

/-- C6 witness: a busted turn holding the duplicate pair finalizes with all
scores unchanged and both cards moved to the discard pile. -/
theorem bustForfeitsScoreWitness :
    (finalizeTurnEnd c6State).players = c6State.players ∧
    (finalizeTurnEnd c6State).discardPile = c6State.drawnCards ++ c6State.discardPile ∧
    (finalizeTurnEnd c6State).drawnCards = [] :=
  bustForfeitsScore c6State (by decide)

/-- C10: when turn finalization finds a player at 200+ points and two or
more players tie for the maximum `totalScore`, the winner is the tied
player occurring last in roster order: the `reduce` keeps the later
element on equal scores, so the winner attains the maximum, sits at or
after both tied indices, and every later player is strictly below the
maximum. -/
theorem winnerTieBreakLast (s : AppState) (i j : Nat)
    (hi : i < (updatedPlayersAfter s).length) (hj : j < (updatedPlayersAfter s).length)
    (hij : i ≠ j)
    (hmi : ((updatedPlayersAfter s).get ⟨i, hi⟩).totalScore = maxTotal (updatedPlayersAfter s))
    (hmj : ((updatedPlayersAfter s).get ⟨j, hj⟩).totalScore = maxTotal (updatedPlayersAfter s))
    (hw : (updatedPlayersAfter s).any
        (fun p => decide (WINNING_SCORE ≤ p.totalScore)) = true) :
    ∃ k, ∃ hk : k < (updatedPlayersAfter s).length,
      (finalizeTurnEnd s).winner = some ((updatedPlayersAfter s).get ⟨k, hk⟩) ∧
      ((updatedPlayersAfter s).get ⟨k, hk⟩).totalScore = maxTotal (updatedPlayersAfter s) ∧
      i ≤ k ∧ j ≤ k ∧
      ∀ m, ∀ hm : m < (updatedPlayersAfter s).length, k < m →
        ((updatedPlayersAfter s).get ⟨m, hm⟩).totalScore
          < maxTotal (updatedPlayersAfter s) := by
  have hwin : (finalizeTurnEnd s).winner = reduceWinner (updatedPlayersAfter s) := by
    unfold finalizeTurnEnd
    rw [if_pos hw]
  obtain ⟨k, hk, he, hmax, hik, hjk, hlast⟩ :=
    reduceWinner_last_max (updatedPlayersAfter s) i j hi hj hij hmi hmj
  exact ⟨k, hk, by rw [hwin, he], hmax, hik, hjk, hlast⟩

/-- C10 witness: players 1 and 2 tied at 200 — the winner is player 2, the
later of the two in roster order. -/
theorem winnerTieBreakLastWitness :
    ∃ k, ∃ hk : k < (updatedPlayersAfter c10State).length,
      (finalizeTurnEnd c10State).winner
          = some ((updatedPlayersAfter c10State).get ⟨k, hk⟩) ∧
      ((updatedPlayersAfter c10State).get ⟨k, hk⟩).totalScore
          = maxTotal (updatedPlayersAfter c10State) ∧
      0 ≤ k ∧ 1 ≤ k ∧
      ∀ m, ∀ hm : m < (updatedPlayersAfter c10State).length, k < m →
        ((updatedPlayersAfter c10State).get ⟨m, hm⟩).totalScore
          < maxTotal (updatedPlayersAfter c10State) :=
  winnerTieBreakLast c10State 0 1 (by decide) (by decide) (by decide) (by decide)
    (by decide) (by decide)

/-- C5 (counterexample): `App.handleAddPlayer` appends even to a full
18-player roster (yielding 19 players) and `App.handleRemovePlayer`
removes even from a minimum 3-player roster (yielding 2), so the App
handlers themselves do not reject bound-violating changes. -/
theorem rosterBoundsCounterexample :
    c5FullState.players.length = 18 ∧
    (handleAddPlayer c5FullState "Riley").players.length = 19 ∧
    c5MinState.players.length = 3 ∧
    (handleRemovePlayer c5MinState 0).players.length = 2 := by decide

/-- C5 (amended): the App handlers apply the change unconditionally; the
roster bounds live in the StartModal guards `canAddPlayer`
(`|roster| < 18`) and `canRemovePlayer` (`|roster| > 3`).  Whenever a
handler is invoked only under its guard — which is how the modal wires its
buttons — the invariant `3 ≤ |roster| ≤ 18` is preserved. -/
theorem rosterBoundsGuarded (s : AppState) (name : String) (i : Nat)
    (h3 : MIN_PLAYERS ≤ s.players.length) (h18 : s.players.length ≤ MAX_PLAYERS) :
    (canAddPlayer s.players = true →
      MIN_PLAYERS ≤ (handleAddPlayer s name).players.length ∧
        (handleAddPlayer s name).players.length ≤ MAX_PLAYERS) ∧
    (canRemovePlayer s.players = true →
      MIN_PLAYERS ≤ (handleRemovePlayer s i).players.length ∧
        (handleRemovePlayer s i).players.length ≤ MAX_PLAYERS) := by
  have e3 : MIN_PLAYERS = 3 := rfl
  have e18 : MAX_PLAYERS = 18 := rfl
  have hadd : (handleAddPlayer s name).players.length = s.players.length + 1 := by
    unfold handleAddPlayer
    simp
  have hrem : (handleRemovePlayer s i).players.length
      = if i < s.players.length then s.players.length - 1 else s.players.length := by
    unfold handleRemovePlayer
    dsimp only
    have h0 : s.players.enum = List.enumFrom 0 s.players := rfl
    rw [h0, length_removeAt s.players 0 i (Nat.zero_le i)]
    simp
  constructor
  · intro hca
    have hlt : s.players.length < MAX_PLAYERS := by
      have := of_decide_eq_true hca
      exact this
    rw [hadd]
    omega
  · intro hcr
    have hgt : MIN_PLAYERS < s.players.length := by
      have := of_decide_eq_true hcr
      exact this
    rw [hrem]
    split <;> omega

/-- C5 witness: from a 4-player roster both guarded operations stay within
the 3..18 bounds. -/
theorem rosterBoundsGuardedWitness :
    (canAddPlayer c5MidState.players = true →
      MIN_PLAYERS ≤ (handleAddPlayer c5MidState "Sam").players.length ∧
        (handleAddPlayer c5MidState "Sam").players.length ≤ MAX_PLAYERS) ∧
    (canRemovePlayer c5MidState.players = true →
      MIN_PLAYERS ≤ (handleRemovePlayer c5MidState 1).players.length ∧
        (handleRemovePlayer c5MidState 1).players.length ≤ MAX_PLAYERS) :=
  rosterBoundsGuarded c5MidState "Sam" 1 (by decide) (by decide)

/-- C4 (counterexample): drawing the last deck card while the discard pile
is nonempty does not rebuild the draw pile synchronously: afterwards the
draw pile is empty, the discard pile is untouched, only a reshuffle has
been scheduled, and the very next draw request is a complete no-op — it
returns no card, contradicting the claim that it succeeds. -/
theorem reshuffleNotSynchronous :
    (drawCard c4State).deck = [] ∧
    (drawCard c4State).discardPile = c4State.discardPile ∧
    c4State.discardPile ≠ [] ∧
    (drawCard c4State).pendingReshuffle = true ∧
    drawCard (drawCard c4State) = drawCard c4State := by decide

/-- C4 (amended): after a draw empties the draw pile with a nonempty
discard pile, the reshuffle is only scheduled: while it is pending every
draw request is a no-op; once the scheduled reshuffle callback runs, the
draw pile is a permutation of the discard pile, the discard pile is
cleared, and the next draw request succeeds, taking the front card of the
reshuffled pile. -/
theorem deferredReshuffle (s : AppState) (rand : Nat → Nat)
    (hdeck : s.deck = []) (hpend : s.pendingReshuffle = true)
    (hdisc : s.discardPile ≠ []) (hact : s.isTurnActive = true)
    (hbust : s.hasBusted = false)
    (hhand : numberCardCount s.drawnCards < MAX_HAND_SIZE)
    (hflip : s.isFlippingThree = false) :
    drawCard s = s ∧
    (runPendingReshuffle rand s).deck.Perm s.discardPile ∧
    (runPendingReshuffle rand s).discardPile = [] ∧
    ∃ c rest, (runPendingReshuffle rand s).deck = c :: rest ∧
      (drawCard (runPendingReshuffle rand s)).deck = rest := by
  have hnoop : drawCard s = s := by
    unfold drawCard
    rw [if_pos (by rw [hdeck]; rfl)]
  have hsr : runPendingReshuffle rand s
      = { s with deck := setDeck rand s.discardPile, discardPile := [],
                 pendingReshuffle := false } := by
    unfold runPendingReshuffle
    rw [if_pos hpend]
  have hperm : (runPendingReshuffle rand s).deck.Perm s.discardPile := by
    rw [hsr]
    exact shuffle_perm rand s.discardPile
  have hne : (runPendingReshuffle rand s).deck ≠ [] := by
    intro hnil
    have hlen := hperm.length_eq
    rw [hnil] at hlen
    exact hdisc (List.length_eq_zero.mp hlen.symm)
  obtain ⟨c, rest, hcr⟩ : ∃ c rest, (runPendingReshuffle rand s).deck = c :: rest := by
    cases hd : (runPendingReshuffle rand s).deck with
    | nil => exact absurd hd hne
    | cons c rest => exact ⟨c, rest, rfl⟩
  have hcan : canDrawCard (runPendingReshuffle rand s) = true := by
    have hlen : 0 < (runPendingReshuffle rand s).deck.length := by
      rw [hcr]
      simp
    unfold canDrawCard
    rw [hsr] at hlen ⊢
    dsimp only at hlen ⊢
    rw [hact, hbust, hflip]
    simp [hhand, hlen]
  exact ⟨hnoop, hperm, by rw [hsr], c, rest, hcr,
    drawCard_deck_tail (runPendingReshuffle rand s) c rest hcr hcan⟩

/-- C4 witness: in a state with a pending reshuffle, three discarded cards
and an empty draw pile, draws are no-ops until the reshuffle callback runs,
after which the next draw succeeds. -/
theorem deferredReshuffleWitness :
    drawCard c4PendingState = c4PendingState ∧
    (runPendingReshuffle (fun n => n) c4PendingState).deck.Perm
        c4PendingState.discardPile ∧
    (runPendingReshuffle (fun n => n) c4PendingState).discardPile = [] ∧
    ∃ c rest, (runPendingReshuffle (fun n => n) c4PendingState).deck = c :: rest ∧
      (drawCard (runPendingReshuffle (fun n => n) c4PendingState)).deck = rest :=
  deferredReshuffle c4PendingState (fun n => n) (by decide) (by decide) (by decide)
    (by decide) (by decide) (by decide) (by decide)

/-- C2 (evaluating the code at the failing input): with a SECOND CHANCE
card and a 5 in hand and a duplicate 5 on top of the deck, the drawn card
busts and the mitigation fires — but because the engine passes the freshly
drawn card's id, which matches nothing in the hand, only the SECOND CHANCE
card is removed: the hand shrinks by 1 instead of 2, only the SECOND
CHANCE card reaches the discard pile, and the bust card itself ends up in
no pile (the zone total drops from 3 to 2). -/
theorem mitigationDropsBustCard :
    checkBust c2State.drawnCards c2BustCard = true ∧
    hasSecondChance c2State.drawnCards = true ∧
    c2State.deck = [c2BustCard] ∧
    (drawCard c2State).drawnCards = [mkNumberCard 64 5] ∧
    (drawCard c2State).discardPile
        = [mkSpecialCard 92 CardType.SECOND_CHANCE 0 "SECOND CHANCE"] ∧
    (drawCard c2State).deck = [] ∧
    cardTotal c2State = 3 ∧
    cardTotal (drawCard c2State) = 2 := by decide

set_option maxRecDepth 1000000 in
/-- C1 (violation exhibited): in a reachable match state — start a game
with a deck order placing a SECOND CHANCE card and two 5s up front, then
draw three times — the second-chance mitigation of the third draw loses
the drawn bust card entirely: the draw-pile + discard-pile + hand total
falls from 94 to 93, so cards are not conserved. -/
theorem cardConservationViolated :
    Reachable c1midState ∧ Reachable (drawCard c1midState) ∧
    cardTotal c1midState = 94 ∧ cardTotal (drawCard c1midState) = 93 :=
  ⟨Reachable.draw (Reachable.draw (Reachable.start rand0 (Reachable.init rand0))),
   Reachable.draw (Reachable.draw (Reachable.draw
     (Reachable.start rand0 (Reachable.init rand0)))),
   by decide, by decide⟩

end Flip7
